import Mathlib

/-!
Verification development for the MODIS Level-1B band loading module
(`src/L1BMODIS.py` of map_SatelliteImagery).

Shallow embedding conventions:

* 2-D numpy arrays are modelled pointwise, as functions from an abstract
  index type `ι` to exact rationals `ℚ` (raw digital counts carry no NaN;
  floating-point rounding is out of scope, arithmetic is exact).
* The NaN sentinel written by the masking step is modelled as `Option.none`;
  a NaN-capable grid is `ι → Option ℚ`.  `Option.map` models the fact that
  NaN propagates through the affine transform.
* A 3-D array with the band axis first is a `List` of 2-D grids.
* Python functions that can raise (missing band, missing dataset, unbound
  local variable, `ValueError` from `.index`) are embedded as
  `Option`-returning functions; every failure mode is `none`.
* In-place mutation of the caller's array (`band_data[invalid] = np.nan`)
  is embedded by returning the post-call state of the buffer alongside the
  function's return value.
-/

namespace L1BMODIS

/-- A 2-D numeric grid (one image plane), modelled pointwise. -/
abbrev Grid (ι : Type) := ι → ℚ

/-- A NaN-capable grid: `none` is the "no data" (NaN) sentinel. -/
abbrev NGrid (ι : Type) := ι → Option ℚ

/-- One science dataset (an `EV_*` field of the HDF file) together with the
attributes the code reads from it: the 3-D data array (band axis first),
`valid_range`, `_FillValue`, the two per-band scale/offset attribute
families, and the legacy `band_names` attribute. -/
structure SDDataset (ι : Type) where
  data : List (Grid ι)
  valid_range : ℚ × ℚ
  fill_value : ℚ
  reflectance_scales : List ℚ
  reflectance_offsets : List ℚ
  radiance_scales : List ℚ
  radiance_offsets : List ℚ
  band_names : String

/-- An L1B band file: the four band-number lookup tables (already cast to
integers, as `hdf.select(key)[:].astype(int)` does) and the four sample
datasets they correspond to. -/
structure HDFBandFile (ι : Type) where
  band_250M : List ℤ
  band_500M : List ℤ
  band_1KM_RefSB : List ℤ
  band_1KM_Emissive : List ℤ
  ev_250 : SDDataset ι
  ev_500 : SDDataset ι
  ev_1KM_RefSB : SDDataset ι
  ev_1KM_Emissive : SDDataset ι

/-- `hdf.select(name)` for the four sample-data field names; any other name
is a missing dataset (`HDF4Error` in pyhdf), modelled as `none`. -/
def HDFBandFile.select (hdf : HDFBandFile ι) (name : String) :
    Option (SDDataset ι) :=
  if name = "EV_250_Aggr1km_RefSB" then some hdf.ev_250
  else if name = "EV_500_Aggr1km_RefSB" then some hdf.ev_500
  else if name = "EV_1KM_RefSB" then some hdf.ev_1KM_RefSB
  else if name = "EV_1KM_Emissive" then some hdf.ev_1KM_Emissive
  else none

/-- The `band_info` iteration of `locate_band`: the zipped
`band_lists`/`band_names` pairs, in the insertion (= iteration) order of the
Python dict: 250m reflective, 500m reflective, 1km reflective, 1km
emissive.  Each entry pairs a group's sample-field name with that group's
band-number table. -/
def band_groups (hdf : HDFBandFile ι) : List (String × List ℤ) :=
  [("EV_250_Aggr1km_RefSB", hdf.band_250M),
   ("EV_500_Aggr1km_RefSB", hdf.band_500M),
   ("EV_1KM_RefSB", hdf.band_1KM_RefSB),
   ("EV_1KM_Emissive", hdf.band_1KM_Emissive)]

/-- One step of the `for key in band_info.keys()` loop of `locate_band`:
if the band is in this group's table, overwrite `FIELD, INDEX` with this
group's field name and the first index of the band in its table
(`np.where(numbers == band)[0][0]`); otherwise keep the previous value. -/
def locStep (band : ℤ) (acc : Option (String × ℕ)) (fg : String × List ℤ) :
    Option (String × ℕ) :=
  if band ∈ fg.2 then some (fg.1, List.indexOf band fg.2) else acc

/-- `locate_band(hdf, band)`: fold the loop over the four groups.  `FIELD`
and `INDEX` start unbound (`none`); returning `none` models the
`UnboundLocalError` the source raises when no group contains the band. -/
def locate_band (hdf : HDFBandFile ι) (band : ℤ) : Option (String × ℕ) :=
  (band_groups hdf).foldl (locStep band) none

/-- A calibration record, as built by `grab_scaling`: the `scaling` dict. -/
structure Scaling where
  validmin : ℚ
  validmax : ℚ
  fillval : ℚ
  scale : ℚ
  offset : ℚ
deriving DecidableEq

/-- Whether `pat` occurs as a contiguous segment of a character list:
the Python substring test `pat in s`. -/
def hasSeg (pat : List Char) : List Char → Bool
  | [] => pat.isEmpty
  | c :: rest => pat.isPrefixOf (c :: rest) || hasSeg pat rest

/-- The Python substring test `pat in s` on strings. -/
def strContains (s pat : String) : Bool :=
  hasSeg pat.toList s.toList

/-- `grab_scaling(hdf, field, index)`: read `valid_range` and `_FillValue`
from the dataset named `field`, pick the reflectance attribute family when
the field name contains `"Ref"` and the radiance family otherwise, and keep
the per-band scale and offset at position `index`.  `none` models a
missing dataset; out-of-range attribute indexing (never reached on
well-formed files) is modelled with `List.getD`. -/
def grab_scaling (hdf : HDFBandFile ι) (field : String) (index : ℕ) :
    Option Scaling :=
  (hdf.select field).map fun dataset =>
    let scales := if strContains field "Ref" then dataset.reflectance_scales
      else dataset.radiance_scales
    let offsets := if strContains field "Ref" then dataset.reflectance_offsets
      else dataset.radiance_offsets
    { validmin := dataset.valid_range.1
      validmax := dataset.valid_range.2
      fillval := dataset.fill_value
      scale := scales.getD index 0
      offset := offsets.getD index 0 }

/-- A band loader result: either a bare NaN-capable array, or a numpy
masked array, i.e. the data together with its boolean mask. -/
inductive BandOutput (ι : Type) where
  | plain (data : NGrid ι)
  | masked (data : NGrid ι) (mask : ι → Bool)

/-- The underlying data of a band loader result. -/
def BandOutput.data : BandOutput ι → NGrid ι
  | .plain d => d
  | .masked d _ => d

/-- Whether the masked-array wrapper was applied. -/
def BandOutput.isMasked : BandOutput ι → Bool
  | .plain _ => false
  | .masked _ _ => true

/-- `mask_bad_data(band_data, scaling, apply_mask)`.  The boolean grid
`invalid` starts all-`False` and receives the three in-place updates of the
source in order (`> validmax`, `< validmin`, `== fillval`); invalid cells
of the caller's buffer are then overwritten with NaN; the affine transform
`(value - offset) * scale` is applied to the whole grid (NaN propagating
through it); the masked-array wrapper is applied when requested.

The result is the pair (caller's `band_data` buffer after the in-place
writes, returned `offset_data`). -/
def mask_bad_data (band_data : Grid ι) (scaling : Scaling)
    (apply_mask : Bool) : NGrid ι × BandOutput ι :=
  let invalid0 : ι → Bool := fun _ => false
  let invalid1 : ι → Bool := fun i =>
    if band_data i > scaling.validmax then true else invalid0 i
  let invalid2 : ι → Bool := fun i =>
    if band_data i < scaling.validmin then true else invalid1 i
  let invalid : ι → Bool := fun i =>
    if band_data i = scaling.fillval then true else invalid2 i
  let nan_written : NGrid ι := fun i =>
    if invalid i then none else some (band_data i)
  let offset_data : NGrid ι := fun i =>
    (nan_written i).map fun v => (v - scaling.offset) * scaling.scale
  let output := if apply_mask then
      BandOutput.masked offset_data (fun i => (offset_data i).isNone)
    else BandOutput.plain offset_data
  (nan_written, output)

/-- A geolocation file: its datasets in positional order
(`f.select(0)`, `f.select(1)`, ...). -/
structure GeoFile (ι : Type) where
  datasets : List (Grid ι)

/-- The longitude wrap of `get_MODISgeo`: `geolon[geolon < 0] += 360`,
applied to one cell. -/
def normalize_lon (v : ℚ) : ℚ :=
  if v < 0 then v + 360 else v

/-- `get_MODISgeo(geofile)`: read the dataset at position 0 as `geolat` and
the dataset at position 1 as `geolon`, add 360 to every negative longitude
cell in place, and return the pair `(geolon, geolat)` — longitude first, as
the `return geolon, geolat` statement of the source does.  `none` models a
file without datasets at positions 0 and 1. -/
def get_MODISgeo (geofile : GeoFile ι) : Option (Grid ι × Grid ι) :=
  match geofile.datasets[0]?, geofile.datasets[1]? with
  | some geolat, some geolon =>
      some (fun i => normalize_lon (geolon i), geolat)
  | _, _ => none

/-- `load_MODIS1KMband(file, band, apply_scaling, apply_mask)`: locate the
band, slice the plane at `INDEX` along axis 0 of the field's array and
convert it to double (exact on rationals, hence the identity here); then
either run `grab_scaling` and `mask_bad_data` on it, or return the raw
double-precision slice as is.  Out-of-range plane indexing (never reached
on well-formed files) is modelled with `List.getD`. -/
def load_MODIS1KMband (hdf : HDFBandFile ι) (band : ℤ)
    (apply_scaling : Bool) (apply_mask : Bool) : Option (BandOutput ι) :=
  match locate_band hdf band with
  | none => none
  | some (FIELD, INDEX) =>
    match hdf.select FIELD with
    | none => none
    | some dataset =>
      let band_data : Grid ι := dataset.data.getD INDEX (fun _ => 0)
      if apply_scaling then
        match grab_scaling hdf FIELD INDEX with
        | none => none
        | some scaling => some (mask_bad_data band_data scaling apply_mask).2
      else
        some (BandOutput.plain fun i => some (band_data i))

/-- Python's `str.split(sep)` for a one-character separator, on character
lists (structural recursion, so that it evaluates in the kernel). -/
def pySplit (sep : Char) : List Char → List (List Char)
  | [] => [[]]
  | c :: rest =>
    match pySplit sep rest with
    | [] => [[]]
    | cur :: done => if c = sep then [] :: cur :: done else (c :: cur) :: done

/-- `band_names.split(",")` of the legacy loader. -/
def split_band_names (s : String) : List String :=
  (pySplit ',' s.toList).map String.mk

/-- The body of the legacy loader once the band index `k` along the leading
axis is known: choose the scale/offset family named by `refrad` (an
unspecified `refrad` leaves `scales`/`offsets` unbound and the source
crashes, hence `none`), build the invalid-cell mask with
`np.logical_or(band_data > validmax, band_data < validmin)` or-ed with
`band_data == fillval`, write NaN over invalid cells, apply the affine
transform, and always wrap the result as a masked array. -/
def legacy_at (dataset : SDDataset ι) (k : ℕ) (refrad : String) :
    Option (BandOutput ι) :=
  let band_data : Grid ι := dataset.data.getD k (fun _ => 0)
  let fam : Option (ℚ × ℚ) :=
    if refrad = "reflectance" then
      some (dataset.reflectance_scales.getD k 0,
        dataset.reflectance_offsets.getD k 0)
    else if refrad = "radiance" then
      some (dataset.radiance_scales.getD k 0,
        dataset.radiance_offsets.getD k 0)
    else none
  match fam with
  | none => none
  | some (scales, offsets) =>
    let validmin := dataset.valid_range.1
    let validmax := dataset.valid_range.2
    let fillval := dataset.fill_value
    let invalid : ι → Bool := fun i =>
      (decide (band_data i > validmax) || decide (band_data i < validmin))
        || decide (band_data i = fillval)
    let nan_written : NGrid ι := fun i =>
      if invalid i then none else some (band_data i)
    let out : NGrid ι := fun i =>
      (nan_written i).map fun v => (v - offsets) * scales
    some (BandOutput.masked out fun i => (out i).isNone)

/-- `load_MODISband_old(file, dataset, band, refrad)`: find the position of
the label `band` in the comma-split `band_names` attribute string
(`band_names.split(",").index(band)`: first occurrence; a missing label
raises `ValueError`, modelled as `none`) and run the legacy body at that
leading-axis position. -/
def load_MODISband_old (dataset : SDDataset ι) (band : String)
    (refrad : String) : Option (BandOutput ι) :=
  let names := split_band_names dataset.band_names
  if band ∈ names then legacy_at dataset (List.indexOf band names) refrad
  else none

/-- A small concrete dataset used to instantiate the theorems: three
constant planes over a one-cell grid, valid range `[0, 100]`, fill value
`99`, and distinct per-band calibration attributes. -/
def exDS : SDDataset (Fin 1) where
  data := [fun _ => 3, fun _ => 5, fun _ => 7]
  valid_range := (0, 100)
  fill_value := 99
  reflectance_scales := [2, 3, 4]
  reflectance_offsets := [1, 1, 1]
  radiance_scales := [5, 6, 7]
  radiance_offsets := [0, 0, 0]
  band_names := "1,2,3"

/-- A concrete band file whose four band tables are pairwise disjoint. -/
def exFile : HDFBandFile (Fin 1) where
  band_250M := [1, 2]
  band_500M := [3, 4, 5, 6, 7]
  band_1KM_RefSB := [8, 9, 10]
  band_1KM_Emissive := [20, 21]
  ev_250 := exDS
  ev_500 := exDS
  ev_1KM_RefSB := exDS
  ev_1KM_Emissive := exDS

/-- A concrete band file in which band `3` appears in two groups (the 250m
and the 500m tables). -/
def exFileDup : HDFBandFile (Fin 1) where
  band_250M := [1, 2, 3]
  band_500M := [3, 4, 5, 6, 7]
  band_1KM_RefSB := [8, 9, 10]
  band_1KM_Emissive := [20, 21]
  ev_250 := exDS
  ev_500 := exDS
  ev_1KM_RefSB := exDS
  ev_1KM_Emissive := exDS

/-- A concrete geolocation file: latitude `10` at position 0, longitude
`-10` at position 1. -/
def exGeo : GeoFile (Fin 1) where
  datasets := [fun _ => 10, fun _ => -10]

/-- A concrete geolocation file whose longitude dataset holds `400`, a
value outside `[-360, 360)`. -/
def exGeoBad : GeoFile (Fin 1) where
  datasets := [fun _ => 70, fun _ => 400]

/-! ## Helper lemmas -/

/-- Folding the `locate_band` loop over groups none of which contains the
band leaves the accumulator unchanged. -/
theorem foldl_locStep_no_match (band : ℤ) (acc : Option (String × ℕ))
    (gs : List (String × List ℤ)) (h : ∀ g ∈ gs, band ∉ g.2) :
    gs.foldl (locStep band) acc = acc := by
  induction gs generalizing acc with
  | nil => rfl
  | cons g t ih =>
    rw [List.foldl_cons]
    have hg : band ∉ g.2 := h g (List.mem_cons_self g t)
    rw [show locStep band acc g = acc from by simp [locStep, hg]]
    exact ih acc fun g' hg' => h g' (List.mem_cons_of_mem g hg')

/-- Folding the `locate_band` loop over a list whose last band-containing
group is `g` yields `g`'s field and the first index of the band in `g`'s
table. -/
theorem foldl_locStep_last (band : ℤ) (acc : Option (String × ℕ))
    (l₁ : List (String × List ℤ)) (g : String × List ℤ)
    (l₂ : List (String × List ℤ)) (hg : band ∈ g.2)
    (h₂ : ∀ g' ∈ l₂, band ∉ g'.2) :
    (l₁ ++ g :: l₂).foldl (locStep band) acc =
      some (g.1, List.indexOf band g.2) := by
  rw [List.foldl_append, List.foldl_cons]
  rw [show locStep band (l₁.foldl (locStep band) acc) g =
      some (g.1, List.indexOf band g.2) from by simp [locStep, hg]]
  exact foldl_locStep_no_match band _ l₂ h₂

/-- Any list with a member satisfying a property splits around the last
such member. -/
theorem exists_last_not (band : ℤ) (l : List (String × List ℤ))
    (h : ∃ g ∈ l, band ∈ g.2) :
    ∃ l₁ g l₂, l = l₁ ++ g :: l₂ ∧ band ∈ g.2 ∧ ∀ g' ∈ l₂, band ∉ g'.2 := by
  induction l with
  | nil => simp at h
  | cons a t ih =>
    by_cases ht : ∃ g ∈ t, band ∈ g.2
    · obtain ⟨l₁, g, l₂, hdec, hg, h₂⟩ := ih ht
      exact ⟨a :: l₁, g, l₂, by rw [hdec, List.cons_append], hg, h₂⟩
    · have ha : band ∈ a.2 := by
        rcases h with ⟨g, hgl, hgb⟩
        rcases List.mem_cons.mp hgl with rfl | hgt
        · exact hgb
        · exact absurd ⟨g, hgt, hgb⟩ ht
      exact ⟨[], a, t, rfl, ha, fun g' hg' hb => ht ⟨g', hg', hb⟩⟩

/-- Positions strictly before `List.indexOf a l` do not hold `a`:
`indexOf` is the first occurrence. -/
theorem getElem?_ne_of_lt_indexOf {α : Type} [DecidableEq α] (a : α)
    (l : List α) (j : ℕ) (hj : j < List.indexOf a l) : l[j]? ≠ some a := by
  induction l generalizing j with
  | nil => simp [List.indexOf] at hj
  | cons c t ih =>
    by_cases hc : c = a
    · rw [List.indexOf_cons_eq _ hc] at hj; omega
    · rw [List.indexOf_cons_ne _ hc] at hj
      cases j with
      | zero => simp [hc]
      | succ j => simpa using ih j (by omega)

/-- Mapping an (injectively labelling) function over a list does not change
the first-occurrence index of a member. -/
theorem indexOf_map_of_inj {α β : Type} [DecidableEq α] [DecidableEq β]
    (f : α → β) (ns : List α) (b : α) (hb : b ∈ ns)
    (hinj : ∀ a ∈ ns, f a = f b → a = b) :
    List.indexOf (f b) (ns.map f) = List.indexOf b ns := by
  induction ns with
  | nil => simp at hb
  | cons a t ih =>
    by_cases hab : a = b
    · subst hab
      rw [List.map_cons, List.indexOf_cons_eq _ rfl, List.indexOf_cons_eq _ rfl]
    · have hfab : f a ≠ f b := fun hf => hab (hinj a (List.mem_cons_self a t) hf)
      have hbt : b ∈ t := by
        rcases List.mem_cons.mp hb with rfl | hmem
        · exact absurd rfl hab
        · exact hmem
      rw [List.map_cons, List.indexOf_cons_ne _ hfab, List.indexOf_cons_ne _ hab,
        ih hbt fun a' ha' hf => hinj a' (List.mem_cons_of_mem a ha') hf]

/-- Whenever the legacy body produces a result, that result carries the
masked-array wrapper. -/
theorem legacy_at_isMasked {ι : Type} (dataset : SDDataset ι) (k : ℕ)
    (refrad : String) (o : BandOutput ι)
    (h : legacy_at dataset k refrad = some o) : o.isMasked = true := by
  unfold legacy_at at h
  by_cases h1 : refrad = "reflectance"
  · simp only [h1, if_pos] at h
    obtain rfl := Option.some_injective _ h.symm
    rfl
  · by_cases h2 : refrad = "radiance"
    · simp only [h1, h2, if_neg, if_pos, ite_false, ite_true] at h
      obtain rfl := Option.some_injective _ h.symm
      rfl
    · simp [h1, h2] at h

/-! ## Claim theorems -/

/-- C1: for every raw 2-D array and every calibration record,
`mask_bad_data` classifies a cell invalid exactly when its value is
`> validmax`, or `< validmin`, or `= fillval` (the three conditions
unioned); exactly those cells are "no data" (`none`) in the output, and
every other cell's output equals `(value - offset) * scale`. -/
theorem mask_bad_data_spec {ι : Type} (band_data : Grid ι) (scaling : Scaling)
    (apply_mask : Bool) (i : ι) :
    ((mask_bad_data band_data scaling apply_mask).2.data i = none ↔
      (band_data i > scaling.validmax ∨ band_data i < scaling.validmin ∨
        band_data i = scaling.fillval)) ∧
    (¬(band_data i > scaling.validmax ∨ band_data i < scaling.validmin ∨
        band_data i = scaling.fillval) →
      (mask_bad_data band_data scaling apply_mask).2.data i =
        some ((band_data i - scaling.offset) * scaling.scale)) := by
  cases apply_mask <;>
  · simp only [mask_bad_data, BandOutput.data]
    by_cases h1 : band_data i > scaling.validmax <;>
      by_cases h2 : band_data i < scaling.validmin <;>
        by_cases h3 : band_data i = scaling.fillval <;>
          simp [h1, h2, h3, BandOutput.data]

/-- Witness for C1: on a one-cell grid with valid range `[0, 100]`, fill
value `99`, scale `2` and offset `1`, the in-range value `5` is calibrated
to `(5 - 1) * 2` and the out-of-range value `200` becomes "no data". -/
theorem mask_bad_data_spec_witness :
    (mask_bad_data (fun _ : Fin 1 => (5 : ℚ)) ⟨0, 100, 99, 2, 1⟩ false).2.data 0 =
      some (((5 : ℚ) - 1) * 2) ∧
    (mask_bad_data (fun _ : Fin 1 => (200 : ℚ)) ⟨0, 100, 99, 2, 1⟩ false).2.data 0 =
      none :=
  ⟨(mask_bad_data_spec (fun _ : Fin 1 => (5 : ℚ)) ⟨0, 100, 99, 2, 1⟩ false 0).2
      (by decide),
   (mask_bad_data_spec (fun _ : Fin 1 => (200 : ℚ)) ⟨0, 100, 99, 2, 1⟩ false 0).1.mpr
      (Or.inl (by decide))⟩

/-- C10: `mask_bad_data` mutates its input array in place — the caller's
buffer after the call holds the "no data" sentinel at every cell that was
classified invalid, and the original value everywhere else, so the input
raw array is not left unchanged whenever some cell is invalid. -/
theorem mask_bad_data_mutates {ι : Type} (band_data : Grid ι)
    (scaling : Scaling) (apply_mask : Bool) (i : ι) :
    (mask_bad_data band_data scaling apply_mask).1 i =
      if band_data i > scaling.validmax ∨ band_data i < scaling.validmin ∨
          band_data i = scaling.fillval
      then none else some (band_data i) := by
  simp only [mask_bad_data]
  by_cases h1 : band_data i > scaling.validmax <;>
    by_cases h2 : band_data i < scaling.validmin <;>
      by_cases h3 : band_data i = scaling.fillval <;>
        simp [h1, h2, h3]

/-- C4: for every band number that appears in none of the four group
tables, `locate_band` produces no (field, index) result — the fold leaves
`FIELD`/`INDEX` unbound, modelling the failure the source raises. -/
theorem locate_band_not_found {ι : Type} (hdf : HDFBandFile ι) (band : ℤ)
    (h : ∀ g ∈ band_groups hdf, band ∉ g.2) :
    locate_band hdf band = none :=
  foldl_locStep_no_match band none (band_groups hdf) h

/-- Witness for C4: band `999` is in no table of the concrete file, and
`locate_band` returns no result on it. -/
theorem locate_band_not_found_witness : locate_band exFile 999 = none :=
  locate_band_not_found exFile 999 (by decide)

/-- C2: for every band number present in at least one group's band-number
table, `locate_band` returns a (field, index) pair such that the
band-number table of the group owning that field holds the requested band
number at position `index`, and `index` is the first occurrence of the
band number within that group's sequence. -/
theorem locate_band_mem_spec {ι : Type} (hdf : HDFBandFile ι) (band : ℤ)
    (g₀ : String × List ℤ) (hg₀ : g₀ ∈ band_groups hdf) (hb₀ : band ∈ g₀.2) :
    ∃ field index, locate_band hdf band = some (field, index) ∧
      ∃ g ∈ band_groups hdf, g.1 = field ∧ g.2[index]? = some band ∧
        ∀ j < index, g.2[j]? ≠ some band := by
  obtain ⟨l₁, g, l₂, hdec, hg, h₂⟩ :=
    exists_last_not band (band_groups hdf) ⟨g₀, hg₀, hb₀⟩
  refine ⟨g.1, List.indexOf band g.2, ?_, g, ?_, rfl,
    List.getElem?_indexOf hg, fun j hj => getElem?_ne_of_lt_indexOf band g.2 j hj⟩
  · unfold locate_band
    rw [hdec]
    exact foldl_locStep_last band none l₁ g l₂ hg h₂
  · rw [hdec]
    exact List.mem_append_right l₁ (List.mem_cons_self g l₂)

/-- Witness for C2: band `4` lives in the 500m table of the concrete file,
and `locate_band` resolves it to a field and first-occurrence index of a
group holding `4` at that index. -/
theorem locate_band_mem_spec_witness :
    ∃ field index, locate_band exFile 4 = some (field, index) ∧
      ∃ g ∈ band_groups exFile, g.1 = field ∧ g.2[index]? = some 4 ∧
        ∀ j < index, g.2[j]? ≠ some 4 :=
  locate_band_mem_spec exFile 4 ("EV_500_Aggr1km_RefSB", [3, 4, 5, 6, 7])
    (by decide) (by decide)

/-- C3: `locate_band` iterates the four groups in the fixed order 250m
reflective, 500m reflective, 1km reflective, 1km emissive, and for a band
number contained in a group after which no later group contains it (in
particular for one appearing in more than one group) it returns the field
name and first-match index of that last containing group. -/
theorem locate_band_last_group_wins {ι : Type} (hdf : HDFBandFile ι)
    (band : ℤ) (l₁ l₂ : List (String × List ℤ)) (g : String × List ℤ)
    (hdec : band_groups hdf = l₁ ++ g :: l₂) (hg : band ∈ g.2)
    (h₂ : ∀ g' ∈ l₂, band ∉ g'.2) :
    band_groups hdf =
      [("EV_250_Aggr1km_RefSB", hdf.band_250M),
       ("EV_500_Aggr1km_RefSB", hdf.band_500M),
       ("EV_1KM_RefSB", hdf.band_1KM_RefSB),
       ("EV_1KM_Emissive", hdf.band_1KM_Emissive)] ∧
    locate_band hdf band = some (g.1, List.indexOf band g.2) ∧
    g.2[List.indexOf band g.2]? = some band ∧
    ∀ j < List.indexOf band g.2, g.2[j]? ≠ some band := by
  refine ⟨rfl, ?_, List.getElem?_indexOf hg,
    fun j hj => getElem?_ne_of_lt_indexOf band g.2 j hj⟩
  unfold locate_band
  rw [hdec]
  exact foldl_locStep_last band none l₁ g l₂ hg h₂

/-- Witness for C3: band `3` appears in both the 250m and the 500m tables
of `exFileDup`; `locate_band` resolves it to the 500m group — the last one
containing it — at that group's first-match index `0`. -/
theorem locate_band_last_group_wins_witness :
    band_groups exFileDup =
      [("EV_250_Aggr1km_RefSB", exFileDup.band_250M),
       ("EV_500_Aggr1km_RefSB", exFileDup.band_500M),
       ("EV_1KM_RefSB", exFileDup.band_1KM_RefSB),
       ("EV_1KM_Emissive", exFileDup.band_1KM_Emissive)] ∧
    locate_band exFileDup 3 =
      some ("EV_500_Aggr1km_RefSB", List.indexOf 3 [(3 : ℤ), 4, 5, 6, 7]) ∧
    [(3 : ℤ), 4, 5, 6, 7][List.indexOf 3 [(3 : ℤ), 4, 5, 6, 7]]? = some 3 ∧
    ∀ j < List.indexOf 3 [(3 : ℤ), 4, 5, 6, 7],
      [(3 : ℤ), 4, 5, 6, 7][j]? ≠ some 3 :=
  locate_band_last_group_wins exFileDup 3
    [("EV_250_Aggr1km_RefSB", [1, 2, 3])]
    [("EV_1KM_RefSB", [8, 9, 10]), ("EV_1KM_Emissive", [20, 21])]
    ("EV_500_Aggr1km_RefSB", [3, 4, 5, 6, 7])
    (by decide) (by decide) (by decide)

/-- C5 counterexample: on a geolocation file whose longitude dataset holds
`400`, the loader leaves the value at `400` (it is not negative, so nothing
is added), and `400` does not lie in `[0, 360)` — refuting "for all inputs
the output lies in [0, 360)". -/
theorem lon_range_cex :
    ((get_MODISgeo exGeoBad).map fun p => p.1 0) = some 400 ∧
    ¬((400 : ℚ) < 360) := by
  constructor
  · norm_num [get_MODISgeo, exGeoBad, normalize_lon]
  · decide

/-- C5 amended: in the geolocation loader's longitude normalization, any
value `< 0` has `360` added to it and values already `≥ 0` are left
untouched; for all inputs in `[-360, 360)` the output lies in `[0, 360)`;
and `-10` maps to `350`. -/
theorem normalize_lon_spec (v : ℚ) :
    (v < 0 → normalize_lon v = v + 360) ∧
    (0 ≤ v → normalize_lon v = v) ∧
    (-360 ≤ v → v < 360 → 0 ≤ normalize_lon v ∧ normalize_lon v < 360) ∧
    normalize_lon (-10) = 350 := by
  unfold normalize_lon
  refine ⟨fun h => by rw [if_pos h], fun h => by rw [if_neg (not_lt.mpr h)],
    fun h1 h2 => ?_, by norm_num⟩
  by_cases h : v < 0
  · rw [if_pos h]
    constructor <;> linarith
  · rw [if_neg h]
    exact ⟨not_lt.mp h, h2⟩

/-- Witness for C5 amended: `-10` is negative and in `[-360, 360)`; the
loader maps it to `-10 + 360`, which lies in `[0, 360)`, and `5` is left
untouched. -/
theorem normalize_lon_spec_witness :
    normalize_lon (-10) = (-10 : ℚ) + 360 ∧
    (0 ≤ normalize_lon (-10) ∧ normalize_lon (-10) < 360) ∧
    normalize_lon 5 = 5 :=
  ⟨(normalize_lon_spec (-10)).1 (by decide),
   (normalize_lon_spec (-10)).2.2.1 (by decide) (by decide),
   (normalize_lon_spec 5).2.1 (by decide)⟩

/-- C6: on a concrete geolocation file whose dataset at position 0 (the
latitude) is constantly `10` and whose dataset at position 1 (the
longitude) is constantly `-10`, the loader returns the pair whose FIRST
component is the normalized longitude `350` and whose SECOND component is
the latitude `10` — i.e. `(longitude, latitude)`, not the documented
`(latitude, longitude)` order. -/
theorem get_MODISgeo_returns_lon_lat :
    ((get_MODISgeo exGeo).map fun p => (p.1 0, p.2 0)) = some (350, 10) := by
  norm_num [get_MODISgeo, exGeo, normalize_lon]

/-- C7: for every file and band number, `load_MODIS1KMband` called with
`apply_scaling = false` returns the plane at the located index along axis 0
of the located field's array, converted to double precision (exact here),
as a bare array with every cell present — no sentinel injection, no
masking, no calibration. -/
theorem load_band_no_scaling {ι : Type} (hdf : HDFBandFile ι) (band : ℤ)
    (field : String) (index : ℕ) (ds : SDDataset ι) (apply_mask : Bool)
    (hloc : locate_band hdf band = some (field, index))
    (hsel : hdf.select field = some ds)
    (hlen : index < ds.data.length) :
    load_MODIS1KMband hdf band false apply_mask =
      some (BandOutput.plain fun i => some (ds.data.get ⟨index, hlen⟩ i)) := by
  unfold load_MODIS1KMband
  rw [hloc]
  dsimp only
  rw [hsel]
  dsimp only
  simp only [Bool.false_eq_true, if_false, ite_false]
  rw [List.getD_eq_get ds.data _ hlen]

/-- Witness for C7: loading band `9` of the concrete file without scaling
returns exactly the raw plane at index 1 of the 1km reflective field (the
constant `5`), every cell present. -/
theorem load_band_no_scaling_witness :
    load_MODIS1KMband exFile 9 false false =
      some (BandOutput.plain fun _ : Fin 1 => some (5 : ℚ)) :=
  load_band_no_scaling exFile 9 "EV_1KM_RefSB" 1 exDS false (by decide) rfl
    (by decide)

/-- C8: for every field name and index, `grab_scaling` reads the
reflectance scale/offset attributes when the field name contains the
reflective-group substring `"Ref"` and the radiance ones otherwise, and
the returned calibration record stores only the element at position
`index` of each per-band sequence, together with `validmin`, `validmax`
and the fill value. -/
theorem grab_scaling_spec {ι : Type} (hdf : HDFBandFile ι) (field : String)
    (index : ℕ) (ds : SDDataset ι) (hsel : hdf.select field = some ds)
    (hr : index < ds.reflectance_scales.length)
    (hro : index < ds.reflectance_offsets.length)
    (ha : index < ds.radiance_scales.length)
    (hao : index < ds.radiance_offsets.length) :
    ∃ s, grab_scaling hdf field index = some s ∧
      s.validmin = ds.valid_range.1 ∧ s.validmax = ds.valid_range.2 ∧
      s.fillval = ds.fill_value ∧
      (strContains field "Ref" = true →
        s.scale = ds.reflectance_scales.get ⟨index, hr⟩ ∧
        s.offset = ds.reflectance_offsets.get ⟨index, hro⟩) ∧
      (strContains field "Ref" = false →
        s.scale = ds.radiance_scales.get ⟨index, ha⟩ ∧
        s.offset = ds.radiance_offsets.get ⟨index, hao⟩) := by
  unfold grab_scaling
  rw [hsel, Option.map_some']
  refine ⟨_, rfl, rfl, rfl, rfl, ?_, ?_⟩
  · intro hRef
    constructor
    · show (if strContains field "Ref" = true then ds.reflectance_scales
        else ds.radiance_scales).getD index 0 = _
      rw [if_pos hRef, List.getD_eq_get ds.reflectance_scales _ hr]
    · show (if strContains field "Ref" = true then ds.reflectance_offsets
        else ds.radiance_offsets).getD index 0 = _
      rw [if_pos hRef, List.getD_eq_get ds.reflectance_offsets _ hro]
  · intro hRef
    have hRef' : ¬ strContains field "Ref" = true := by rw [hRef]; exact Bool.false_ne_true
    constructor
    · show (if strContains field "Ref" = true then ds.reflectance_scales
        else ds.radiance_scales).getD index 0 = _
      rw [if_neg hRef', List.getD_eq_get ds.radiance_scales _ ha]
    · show (if strContains field "Ref" = true then ds.reflectance_offsets
        else ds.radiance_offsets).getD index 0 = _
      rw [if_neg hRef', List.getD_eq_get ds.radiance_offsets _ hao]

/-- Witness for C8: for the concrete file's 1km reflective field (whose
name contains `"Ref"`) at index 1, the record holds valid range `[0, 100]`,
fill value `99`, and the reflectance scale/offset at position 1. -/
theorem grab_scaling_spec_witness :
    ∃ s, grab_scaling exFile "EV_1KM_RefSB" 1 = some s ∧
      s.validmin = exDS.valid_range.1 ∧ s.validmax = exDS.valid_range.2 ∧
      s.fillval = exDS.fill_value ∧
      (strContains "EV_1KM_RefSB" "Ref" = true →
        s.scale = exDS.reflectance_scales.get ⟨1, by decide⟩ ∧
        s.offset = exDS.reflectance_offsets.get ⟨1, by decide⟩) ∧
      (strContains "EV_1KM_RefSB" "Ref" = false →
        s.scale = exDS.radiance_scales.get ⟨1, by decide⟩ ∧
        s.offset = exDS.radiance_offsets.get ⟨1, by decide⟩) :=
  grab_scaling_spec exFile "EV_1KM_RefSB" 1 exDS rfl (by decide) (by decide)
    (by decide) (by decide)

/-- C9: when the comma-split `band_names` attribute lists, in order, the
labels of the band numbers of a group table (labels distinct for distinct
numbers), the legacy loader's selected position — the position of the
requested label in the split string — equals the table-based path's
first-match index for the same logical band, the legacy loader runs its
body on exactly that leading-axis plane, and every result it produces
carries the masked-array wrapper. -/
theorem legacy_matches_table {ι : Type} (ds : SDDataset ι) (ns : List ℤ)
    (f : ℤ → String) (b : ℤ) (refrad : String)
    (hsplit : split_band_names ds.band_names = ns.map f)
    (hinj : ∀ a ∈ ns, f a = f b → a = b) (hb : b ∈ ns) :
    List.indexOf (f b) (split_band_names ds.band_names) =
      List.indexOf b ns ∧
    load_MODISband_old ds (f b) refrad =
      legacy_at ds (List.indexOf b ns) refrad ∧
    ∀ o, load_MODISband_old ds (f b) refrad = some o →
      o.isMasked = true := by
  have hidx : List.indexOf (f b) (split_band_names ds.band_names) =
      List.indexOf b ns := by
    rw [hsplit]
    exact indexOf_map_of_inj f ns b hb hinj
  have hmem : f b ∈ split_band_names ds.band_names := by
    rw [hsplit]
    exact List.mem_map_of_mem f hb
  refine ⟨hidx, ?_, ?_⟩
  · unfold load_MODISband_old
    rw [if_pos hmem, hidx]
  · intro o ho
    unfold load_MODISband_old at ho
    rw [if_pos hmem] at ho
    exact legacy_at_isMasked ds _ refrad o ho

/-- Witness for C9: with `band_names = "1,2,3"`, table `[1, 2, 3]` and
label `"2"` (the decimal name of band `2`), the legacy loader selects
index 1 — the table-based index of band 2 — and its result is the
masked-wrapped legacy body at plane 1. -/
theorem legacy_matches_table_witness :
    List.indexOf (toString (2 : ℤ)) (split_band_names exDS.band_names) =
      List.indexOf 2 [(1 : ℤ), 2, 3] ∧
    load_MODISband_old exDS (toString (2 : ℤ)) "reflectance" =
      legacy_at exDS (List.indexOf 2 [(1 : ℤ), 2, 3]) "reflectance" ∧
    ∀ o, load_MODISband_old exDS (toString (2 : ℤ)) "reflectance" = some o →
      o.isMasked = true :=
  legacy_matches_table exDS [1, 2, 3] (fun n => toString n) 2 "reflectance"
    (by decide) (by decide) (by decide)

end L1BMODIS
